import Mathlib

/-!
# Verification of the `indiapins` postal-code lookup library

Shallow embedding of `src/indiapins/__init__.py` (a read-only lookup
utility over a line-delimited postal-code dataset) together with proofs
about its public query operations `matching`, `isvalid`, `districtmatch`,
`coordinates` and `nearby`, its validation gate `_clean_zipcode` / `_clean`,
and its dataset loader.

Modelling conventions:
* Python values stored in a record are modelled by `Val` (strings, integers
  and `None`); a record (a JSON object) is an association list from field
  names to values.
* Python exceptions are modelled by `PyErr`, which records both the
  exception class (`TypeError` / `ValueError`) and the message; fallible
  functions return `Except PyErr α`.
* Python `float` values produced by `float(...)` on the decimal literals
  this library works with are modelled exactly by `Dec`, a fixed-point
  decimal number (integer mantissa with a power-of-ten scale); `Dec.toRat`
  interprets it as a rational and the arithmetic used by `nearby`
  (subtraction, absolute value, addition, comparison) is proved to agree
  with rational arithmetic under that interpretation.
-/

namespace Indiapins

/-- A Python value as stored in a dataset record: a string, an integer
(JSON integer) or `None` (JSON `null`). -/
inductive Val where
  | str (s : String)
  | int (i : Int)
  | null
deriving DecidableEq, Repr

/-- A dataset record: a JSON object, i.e. an association list from field
names to values (Python `dict`; keys are unique in data produced by
`json.loads`, and all operations read the first binding of a key). -/
def Record := List (String × Val)

instance : DecidableEq Record := inferInstanceAs (DecidableEq (List (String × Val)))

/-- `r.get? k` models Python `r.get(k)` returning `None`-as-absent:
the value of the first binding of `k`, if any. -/
def Record.get? (r : Record) (k : String) : Option Val :=
  (r.find? (fun kv => kv.1 = k)).map (fun kv => kv.2)

/-- `r.hasKey k` models Python `k in r`. -/
def Record.hasKey (r : Record) (k : String) : Bool :=
  r.any (fun kv => kv.1 = k)

/-- `r.getD k d` models Python `r.get(k, d)`. -/
def Record.getD (r : Record) (k : String) (d : Val) : Val :=
  (r.get? k).getD d

/-- Python truthiness of a value: the empty string, `0` and `None` are
falsy, everything else is truthy. -/
def truthy : Val → Bool
  | .str s => s ≠ ""
  | .int i => i ≠ 0
  | .null => false

/-- Python truthiness of an optional value (`r.get(k)` may be absent,
which Python reports as the falsy `None`). -/
def truthyO : Option Val → Bool
  | none => false
  | some v => truthy v

/-- Python `str(...)` on a stored value. -/
def pyStr : Val → String
  | .str s => s
  | .int i => toString i
  | .null => "None"

/-- Whether a value is a Python `str`. -/
def Val.isStr : Val → Bool
  | .str _ => true
  | _ => false

/-- The string payload of a value known to be a `str` (`""` otherwise). -/
def Val.strVal : Val → String
  | .str s => s
  | _ => ""

/-- A Python exception as raised by this library: the exception class
(`TypeError` or `ValueError`) together with its message. -/
inductive PyErr where
  | typeError (msg : String)
  | valueError (msg : String)
deriving DecidableEq, Repr

/-- The exception class of an exception, forgetting the message: this is
all that a caller matching on the exception type can observe. -/
inductive PyExnClass where
  | typeErrorClass
  | valueErrorClass
deriving DecidableEq, Repr

/-- The class of an exception. -/
def PyErr.exnClass : PyErr → PyExnClass
  | .typeError _ => .typeErrorClass
  | .valueError _ => .valueErrorClass

/-- View of an `Except` value as a sum, used to derive decidable
equality. -/
def exceptToSum {ε α : Type} : Except ε α → ε ⊕ α
  | .error e => .inl e
  | .ok a => .inr a

instance {ε α : Type} [DecidableEq ε] [DecidableEq α] : DecidableEq (Except ε α) := fun x y =>
  decidable_of_iff (exceptToSum x = exceptToSum y)
    (by cases x <;> cases y <;> simp [exceptToSum])

/-- Python `str.strip()`: drop leading and trailing whitespace
(structurally on the character list; the data this library reads contains
only spaces and line breaks as whitespace). -/
def pyStrip (s : String) : String :=
  ⟨((s.toList.dropWhile Char.isWhitespace).reverse.dropWhile Char.isWhitespace).reverse⟩

/-- An exact decimal number: `mant / 10 ^ scale`. This models the Python
`float` values the library computes with: every coordinate it parses is a
decimal literal, and the subtraction / absolute value / addition /
comparison performed by `nearby` are modelled exactly on this
representation (see the `Dec.toRat_*` lemmas relating them to rational
arithmetic). -/
structure Dec where
  mant : Int
  scale : Nat
deriving DecidableEq, Repr

/-- The rational value of a decimal number. -/
def Dec.toRat (d : Dec) : ℚ := (d.mant : ℚ) / 10 ^ d.scale

/-- Subtraction of decimals (align scales, subtract mantissas). -/
def Dec.sub (a b : Dec) : Dec :=
  let s := max a.scale b.scale
  ⟨a.mant * 10 ^ (s - a.scale) - b.mant * 10 ^ (s - b.scale), s⟩

/-- Addition of decimals (align scales, add mantissas). -/
def Dec.add (a b : Dec) : Dec :=
  let s := max a.scale b.scale
  ⟨a.mant * 10 ^ (s - a.scale) + b.mant * 10 ^ (s - b.scale), s⟩

/-- Absolute value of a decimal. -/
def Dec.abs (a : Dec) : Dec := ⟨|a.mant|, a.scale⟩

/-- Comparison of decimals (align scales, compare mantissas). -/
def Dec.le (a b : Dec) : Bool :=
  let s := max a.scale b.scale
  a.mant * 10 ^ (s - a.scale) ≤ b.mant * 10 ^ (s - b.scale)

/-- The numeric value of a list of ASCII digits. -/
def digitsToNat (l : List Char) : Nat :=
  l.foldl (fun n c => 10 * n + (c.toNat - 48)) 0

/-- Model of Python `float(s)` on a string: strip surrounding whitespace,
then parse an optional sign followed by a decimal literal
`digits [. digits]` — the fragment of Python float syntax this library's
data uses (exponents, `inf`/`nan`, underscores and non-ASCII digits are
outside the model). -/
def parseFloatLit (s : String) : Option Dec :=
  let cs := (pyStrip s).toList
  let signAndRest : Int × List Char :=
    match cs with
    | '-' :: t => (-1, t)
    | '+' :: t => (1, t)
    | _ => (1, cs)
  let sign := signAndRest.1
  let cs1 := signAndRest.2
  let ip := cs1.takeWhile Char.isDigit
  let rest := cs1.dropWhile Char.isDigit
  match rest with
  | [] => if ip.isEmpty then none else some ⟨sign * digitsToNat ip, 0⟩
  | '.' :: rest2 =>
    let fp := rest2.takeWhile Char.isDigit
    let rest3 := rest2.dropWhile Char.isDigit
    if rest3.isEmpty && !(ip.isEmpty && fp.isEmpty) then
      some ⟨sign * (digitsToNat ip * 10 ^ fp.length + digitsToNat fp), fp.length⟩
    else none
  | _ => none

/-- Model of Python `float(v)` on a stored value: parses strings, converts
integers exactly, and raises `TypeError` on `None`. The `try/except
ValueError` in the scan of `nearby` does not catch the `TypeError`, so the
distinction between the two classes is observable. -/
def pyFloat : Val → Except PyErr Dec
  | .int i => .ok ⟨i, 0⟩
  | .null => .error (.typeError "float() argument must be a string or a real number, not NoneType")
  | .str s =>
    match parseFloatLit s with
    | some d => .ok d
    | none => .error (.valueError ("could not convert string to float: " ++ s))

/-- Model of Python's regex class `\d` on a character: a Unicode decimal
digit (general category Nd), which is what `re.compile(r"[^\d]")` matches
against in the source. Covers the ASCII digits plus the common Nd blocks
exercised in this development (Arabic-Indic, extended Arabic-Indic,
Devanagari, Bengali, fullwidth); Python's `\d` matches the full Nd
category, of which this is a fragment. -/
def isRegexDigit (c : Char) : Bool :=
  c.isDigit
  || (0x660 ≤ c.toNat && c.toNat ≤ 0x669)
  || (0x6F0 ≤ c.toNat && c.toNat ≤ 0x6F9)
  || (0x966 ≤ c.toNat && c.toNat ≤ 0x96F)
  || (0x9E6 ≤ c.toNat && c.toNat ≤ 0x9EF)
  || (0xFF10 ≤ c.toNat && c.toNat ≤ 0xFF19)

/-- `_valid_zipcode_length` from the source. -/
def _valid_zipcode_length : Nat := 6

/-- The `TypeError` raised by the `_clean_zipcode` gate. -/
def typeErrPin : PyErr := .typeError "Invalid type, pincode must be a string."

/-- The `ValueError` raised by `_clean` on a wrong-length code. -/
def lenErrPin : PyErr := .valueError "Invalid format, pincode must be exactly 6 digits."

/-- The `ValueError` raised by `_clean` when `[^\d]` finds a match. -/
def charErrPin : PyErr := .valueError "Invalid characters, pincode may only contain digits."

/-- `_clean` from the source: reject a code whose length is not
`_valid_zipcode_length`, then reject it if the regex `[^\d]` finds a
non-digit character; otherwise pass the code through unchanged. -/
def _clean (zipcode : String) : Except PyErr String :=
  if zipcode.length ≠ _valid_zipcode_length then .error lenErrPin
  else if zipcode.toList.any (fun c => !isRegexDigit c) then .error charErrPin
  else .ok zipcode

/-- The `_clean_zipcode` decorator: raise `TypeError` when the argument is
falsy or not a string, otherwise run the wrapped function on the result of
`_clean`. -/
def _clean_zipcode {α : Type} (fn : String → List Record → Except PyErr α)
    (zipcode : Val) (zips : List Record) : Except PyErr α :=
  if !truthy zipcode then .error typeErrPin
  else
    match zipcode with
    | .str s => (_clean s).bind (fun z => fn z zips)
    | _ => .error typeErrPin

/-- The scan loop of `matching`: skip records without a `"Pincode"`
field, collect those whose stringified code equals the query. The
default value fed to `getD` is unreachable because the key was just
checked; Python indexes the dict directly there. -/
def matchingScan (zipcode : String) : List Record → List Record
  | [] => []
  | e :: rest =>
    if e.hasKey "Pincode" then
      if pyStr (e.getD "Pincode" .null) = zipcode then e :: matchingScan zipcode rest
      else matchingScan zipcode rest
    else matchingScan zipcode rest

/-- The undecorated body of `matching`. -/
def matchingFn (zipcode : String) (zips : List Record) : Except PyErr (List Record) :=
  .ok (matchingScan zipcode zips)

/-- Public `matching`: the body wrapped in the validation gate. -/
def matching : Val → List Record → Except PyErr (List Record) :=
  _clean_zipcode matchingFn

/-- The undecorated body of `isvalid`: `bool(matching(zipcode, zips))`,
calling the decorated `matching` (whose gate re-validates the already
cleaned code). -/
def isvalidFn (zipcode : String) (zips : List Record) : Except PyErr Bool :=
  (matching (.str zipcode) zips).map (fun l => !l.isEmpty)

/-- Public `isvalid`. -/
def isvalid : Val → List Record → Except PyErr Bool :=
  _clean_zipcode isvalidFn

/-- Python `set.add` on an insertion-ordered list model of a set. -/
def setAdd [DecidableEq α] (acc : List α) (x : α) : List α :=
  if x ∈ acc then acc else acc ++ [x]

/-- The loop of `districtmatch`: collect the truthy `"District"` values
of records whose stringified code equals the query into a set (modelled
as an insertion-ordered duplicate-free list; Python's set iteration order
is unspecified, and no claim depends on it). `dist = entry.get("District")`
is `None` when the field is absent, and `if dist:` is its truthiness. -/
def districtLoop (zipcode : String) (acc : List Val) : List Record → List Val
  | [] => acc
  | e :: rest =>
    if e.hasKey "Pincode" ∧ pyStr (e.getD "Pincode" .null) = zipcode then
      if truthyO (e.get? "District") then
        districtLoop zipcode (setAdd acc ((e.get? "District").getD .null)) rest
      else districtLoop zipcode acc rest
    else districtLoop zipcode acc rest

/-- Python `sep.join(xs)`: raises `TypeError` unless every element is a
string. -/
def pyJoin (sep : String) (xs : List Val) : Except PyErr String :=
  if xs.all Val.isStr then .ok (String.intercalate sep (xs.map Val.strVal))
  else .error (.typeError "sequence item: expected str instance")

/-- The `ValueError` raised by `districtmatch` when no district is found. -/
def notFoundErr : PyErr := .valueError "Invalid Pincode, not found in database"

/-- The undecorated body of `districtmatch`: the local `districts` set of
the source is `districtLoop zipcode [] zips`. -/
def districtmatchFn (zipcode : String) (zips : List Record) : Except PyErr String :=
  if (districtLoop zipcode [] zips).isEmpty then .error notFoundErr
  else pyJoin ", " (districtLoop zipcode [] zips)

/-- Public `districtmatch`. -/
def districtmatch : Val → List Record → Except PyErr String :=
  _clean_zipcode districtmatchFn

/-- Python `dict` assignment `m[k] = v` on an insertion-ordered
association list: overwrite in place when the key exists, else append. -/
def dictSet {β : Type} (m : List (Val × β)) (k : Val) (v : β) : List (Val × β) :=
  if m.any (fun kv => kv.1 = k) then m.map (fun kv => if kv.1 = k then (k, v) else kv)
  else m ++ [(k, v)]

/-- Lookup in the insertion-ordered dict model. -/
def dictGet? {β : Type} (m : List (Val × β)) (k : Val) : Option β :=
  (m.find? (fun kv => kv.1 = k)).map (fun kv => kv.2)

/-- The value stored by `coordinates` for one record: string-formatted
latitude and longitude, with `""` substituted for an absent field before
`str` is applied. -/
def coordEntry (e : Record) : String × String :=
  (pyStr (e.getD "Latitude" (.str "")), pyStr (e.getD "Longitude" (.str "")))

/-- The loop of `coordinates` over the matched records, building the
result dict keyed by the `"Name"` field (default `"Unknown"`). -/
def coordsLoop (acc : List (Val × (String × String))) :
    List Record → List (Val × (String × String))
  | [] => acc
  | e :: rest => coordsLoop (dictSet acc (e.getD "Name" (.str "Unknown")) (coordEntry e)) rest

/-- The undecorated body of `coordinates`: runs the decorated `matching`
on the cleaned code and folds the matches into a dict. -/
def coordinatesFn (zipcode : String) (zips : List Record) :
    Except PyErr (List (Val × (String × String))) :=
  (matching (.str zipcode) zips).map (fun ms => coordsLoop [] ms)

/-- Public `coordinates`. -/
def coordinates : Val → List Record → Except PyErr (List (Val × (String × String))) :=
  _clean_zipcode coordinatesFn

/-- Lexicographic comparison of character lists by code point. -/
def charListLe : List Char → List Char → Bool
  | [], _ => true
  | _ :: _, [] => false
  | a :: as, b :: bs =>
    if a.toNat < b.toNat then true
    else if b.toNat < a.toNat then false
    else charListLe as bs

/-- Python `<=` on strings: lexicographic by code point. -/
def pyStrLe (a b : String) : Bool := charListLe a.toList b.toList

/-- The ordering relation `sorted(...)` sorts by, as a proposition. -/
def strRel (a b : String) : Prop := pyStrLe a b = true

instance : DecidableRel strRel :=
  fun a b => inferInstanceAs (Decidable (pyStrLe a b = true))

/-- Model of Python `sorted` on a list of strings. -/
def pySorted (l : List String) : List String := List.insertionSort strRel l

/-- The predicate of the `center_entries` list comprehension in `nearby`:
record has the queried code and truthy latitude and longitude. -/
def centerPred (zipcode : String) (z : Record) : Bool :=
  z.hasKey "Pincode" && decide (pyStr (z.getD "Pincode" .null) = zipcode)
    && truthyO (z.get? "Latitude") && truthyO (z.get? "Longitude")

/-- `center_entries` from `nearby`. -/
def centerEntries (zipcode : String) (zips : List Record) : List Record :=
  zips.filter (centerPred zipcode)

/-- The scan loop of `nearby`: skip records without a code field; parse
latitude then longitude, skipping the record when a `ValueError` is
raised (the `except ValueError` in the source) and propagating any other
exception; add the stringified code to the result set when the Manhattan
distance to the center is within `maxDiff`. -/
def nearbyScan (centerLat centerLon maxDiff : Dec) (acc : List String) :
    List Record → Except PyErr (List String)
  | [] => .ok acc
  | record :: rest =>
    if record.hasKey "Pincode" then
      match pyFloat (record.getD "Latitude" (.str "")) with
      | .error (.valueError _) => nearbyScan centerLat centerLon maxDiff acc rest
      | .error e => .error e
      | .ok lat =>
        match pyFloat (record.getD "Longitude" (.str "")) with
        | .error (.valueError _) => nearbyScan centerLat centerLon maxDiff acc rest
        | .error e => .error e
        | .ok lon =>
          let dist := Dec.add (Dec.abs (Dec.sub lat centerLat)) (Dec.abs (Dec.sub lon centerLon))
          if dist.le maxDiff then
            nearbyScan centerLat centerLon maxDiff
              (setAdd acc (pyStr (record.getD "Pincode" .null))) rest
          else nearbyScan centerLat centerLon maxDiff acc rest
    else nearbyScan centerLat centerLon maxDiff acc rest

/-- The undecorated body of `nearby`: empty result when no center entry
qualifies; otherwise parse the first center entry's coordinates (an
unguarded conversion that can raise), scan the whole dataset, remove the
reference code from the result set, and return it sorted. -/
def nearbyFn (zipcode : String) (maxDiff : Dec) (zips : List Record) :
    Except PyErr (List String) :=
  match centerEntries zipcode zips with
  | [] => .ok []
  | c :: _ =>
    (pyFloat (c.getD "Latitude" .null)).bind (fun centerLat =>
      (pyFloat (c.getD "Longitude" .null)).bind (fun centerLon =>
        (nearbyScan centerLat centerLon maxDiff [] zips).map (fun pins =>
          pySorted (if zipcode ∈ pins then pins.erase zipcode else pins))))

/-- The default `max_diff` of `nearby`, `0.05`. -/
def defaultMaxDiff : Dec := ⟨5, 2⟩

/-- Public `nearby`. -/
def nearby (zipcode : Val) (maxDiff : Dec) (zips : List Record) :
    Except PyErr (List String) :=
  _clean_zipcode (fun z zs => nearbyFn z maxDiff zs) zipcode zips

/-- The result of parsing one line of the dataset resource: either a JSON
object (a key-value mapping) or some other JSON value. `json.loads` is
Python library code; the loader only discriminates objects from
non-objects, which is all this type records. -/
inductive Parsed where
  | obj (r : Record)
  | other
deriving DecidableEq

/-- The loader loop of the module initialiser: for each line, strip it,
skip it when empty, skip it when it fails to parse, skip parses that are
not objects, skip objects lacking `"Pincode"`, and append the rest in
order. The parse function is a parameter standing for `json.loads`
(returning `none` where Python raises `json.JSONDecodeError`). -/
def loadZips (parse : String → Option Parsed) : List String → List Record
  | [] => []
  | line :: rest =>
    let l := pyStrip line
    if l = "" then loadZips parse rest
    else
      match parse l with
      | none => loadZips parse rest
      | some .other => loadZips parse rest
      | some (.obj r) =>
        if r.hasKey "Pincode" then r :: loadZips parse rest
        else loadZips parse rest

/-- The validation performed by `_clean_zipcode` before the wrapped
function runs, isolated as a function of the argument alone (the wrapped
call sees only its result, so validation failures are raised before any
scan of the dataset). -/
def gateOf (zipcode : Val) : Except PyErr String :=
  if !truthy zipcode then .error typeErrPin
  else
    match zipcode with
    | .str s => _clean s
    | _ => .error typeErrPin

/-- The validation gate as the specification describes it, with the
claim's "ASCII digit" amended to the Unicode digit class `\d` the code
actually tests: `TypeError` when the input is empty or not textual,
otherwise `ValueError` when the length is not exactly 6, otherwise
`ValueError` when some character is not a digit, otherwise the code is
passed through unchanged. -/
def specGate (zipcode : Val) : Except PyErr String :=
  match zipcode with
  | .str s =>
    if s = "" then .error typeErrPin
    else if s.length ≠ 6 then .error lenErrPin
    else if ¬ (∀ c ∈ s.toList, isRegexDigit c = true) then .error charErrPin
    else .ok s
  | _ => .error typeErrPin

/-- The display name `coordinates` keys an entry by. -/
def nameOf (e : Record) : Val := e.getD "Name" (.str "Unknown")

/-- The last record of the list whose display name is `k` — the record
whose entry survives the last-write-wins overwriting in `coordinates`.
This follows the specification's description of the result mapping. -/
def lastNamed (k : Val) : List Record → Option Record
  | [] => none
  | e :: rest =>
    match lastNamed k rest with
    | some r => some r
    | none => if nameOf e = k then some e else none

/-- Skip blanks inside a JSON line. -/
def skipWs (cs : List Char) : List Char := cs.dropWhile (fun c => c = ' ')

/-- Parse a JSON string literal (no escape sequences). -/
def parseJString : List Char → Option (String × List Char)
  | '"' :: rest =>
    let body := rest.takeWhile (fun c => c ≠ '"')
    match rest.dropWhile (fun c => c ≠ '"') with
    | '"' :: rest2 => some (⟨body⟩, rest2)
    | _ => none
  | _ => none

/-- Parse a JSON scalar value: a string, an integer or `null`. -/
def parseJVal (cs : List Char) : Option (Val × List Char) :=
  match cs with
  | '"' :: _ => (parseJString cs).map (fun p => (.str p.1, p.2))
  | 'n' :: 'u' :: 'l' :: 'l' :: rest => some (.null, rest)
  | _ =>
    let signAndRest : Int × List Char :=
      match cs with
      | '-' :: t => (-1, t)
      | _ => (1, cs)
    let ds := signAndRest.2.takeWhile Char.isDigit
    if ds.isEmpty then none
    else some (.int (signAndRest.1 * digitsToNat ds), signAndRest.2.dropWhile Char.isDigit)

/-- Parse the comma-separated pairs of a JSON object after its `\x7b`,
consuming the closing `\x7d`; the fuel argument bounds the number of
pairs (each pair consumes at least one character, so the length of the
input suffices). -/
def parsePairs : Nat → List Char → List (String × Val) → Option (Record × List Char)
  | 0, _, _ => none
  | fuel + 1, cs, acc =>
    match parseJString (skipWs cs) with
    | none => none
    | some (k, rest) =>
      match skipWs rest with
      | ':' :: rest2 =>
        match parseJVal (skipWs rest2) with
        | none => none
        | some (v, rest3) =>
          match skipWs rest3 with
          | ',' :: rest4 => parsePairs fuel rest4 (acc ++ [(k, v)])
          | '\x7d' :: rest5 => some (acc ++ [(k, v)], rest5)
          | _ => none
      | _ => none

/-- Model of `json.loads` on one line, restricted to the shapes the
dataset holds: a flat object with string keys and scalar values, or a
bare scalar (reported as a non-object parse); `none` where Python raises
`json.JSONDecodeError`. `json.loads` is Python standard-library code; the
loader only discriminates "fails to parse" / "parses to a non-object" /
"parses to an object", which this model covers. -/
def miniJsonParse (s : String) : Option Parsed :=
  match skipWs s.toList with
  | '\x7b' :: rest =>
    match skipWs rest with
    | '\x7d' :: rest2 => if (skipWs rest2).isEmpty then some (.obj []) else none
    | cs =>
      match parsePairs (cs.length + 1) cs [] with
      | some (r, rest2) => if (skipWs rest2).isEmpty then some (.obj r) else none
      | none => none
  | cs =>
    match parseJVal cs with
    | some (_, rest) => if (skipWs rest).isEmpty then some .other else none
    | none => none

/-- The per-line admission rule of the loader, as the specification
states it: trim the line; skip it when blank; skip it when it fails to
parse or parses to a non-object; skip objects lacking the postal-code
field; admit the rest. -/
def admitLine (parse : String → Option Parsed) (line : String) : Option Record :=
  if pyStrip line = "" then none
  else
    match parse (pyStrip line) with
    | some (.obj r) => if r.hasKey "Pincode" then some r else none
    | _ => none

/-- A record with the given code carrying truthy, parseable latitude and
longitude — the claim's notion of an anchor record for `nearby`. -/
def isAnchor (z : String) (e : Record) : Bool :=
  centerPred z e
    && (pyFloat (e.getD "Latitude" (.str ""))).toOption.isSome
    && (pyFloat (e.getD "Longitude" (.str ""))).toOption.isSome

/-- Three-record dataset refuting the symmetry claim for `nearby`: the
first record of code `"111111"` carries truthy but unparseable
coordinates, so it — not the anchor — is selected as the center and the
anchor conversion raises; the unique anchors of the two codes are within
range of each other. -/
def symCounterData : List Record :=
  [[("Pincode", .str "111111"), ("Latitude", .str "abc"), ("Longitude", .str "abc")],
   [("Pincode", .str "111111"), ("Latitude", .str "10.0"), ("Longitude", .str "10.0")],
   [("Pincode", .str "222222"), ("Latitude", .str "10.0"), ("Longitude", .str "10.01")]]

/-- The anchor record of code `"110001"` in the symmetry witness data. -/
def anchorA : Record :=
  [("Pincode", .str "110001"), ("Latitude", .str "28.63"), ("Longitude", .str "77.22")]

/-- The anchor record of code `"110002"` in the symmetry witness data. -/
def anchorB : Record :=
  [("Pincode", .str "110002"), ("Latitude", .str "28.60"), ("Longitude", .str "77.23")]

/-- Two mutually nearby single-anchor codes. -/
def symPairData : List Record := [anchorA, anchorB]

theorem Dec.rescale_cast (a : Int) (sa s : Nat) (h : sa ≤ s) :
    ((a * 10 ^ (s - sa) : Int) : ℚ) / 10 ^ s = (a : ℚ) / 10 ^ sa := by
  have hs : (10 : ℚ) ^ s = 10 ^ sa * 10 ^ (s - sa) := by
    rw [← pow_add, Nat.add_sub_cancel' h]
  push_cast
  rw [hs, mul_div_mul_right _ _ (by positivity : ((10 : ℚ) ^ (s - sa)) ≠ 0)]

theorem Dec.toRat_sub (a b : Dec) : (a.sub b).toRat = a.toRat - b.toRat := by
  unfold Dec.sub Dec.toRat
  simp only
  rw [Int.cast_sub, sub_div,
    Dec.rescale_cast a.mant a.scale _ (le_max_left a.scale b.scale),
    Dec.rescale_cast b.mant b.scale _ (le_max_right a.scale b.scale)]

theorem Dec.toRat_add (a b : Dec) : (a.add b).toRat = a.toRat + b.toRat := by
  unfold Dec.add Dec.toRat
  simp only
  rw [Int.cast_add, add_div,
    Dec.rescale_cast a.mant a.scale _ (le_max_left a.scale b.scale),
    Dec.rescale_cast b.mant b.scale _ (le_max_right a.scale b.scale)]

theorem Dec.toRat_abs (a : Dec) : a.abs.toRat = |a.toRat| := by
  unfold Dec.abs Dec.toRat
  rw [abs_div]
  simp [abs_of_pos, pow_pos]

theorem Dec.le_iff_toRat (a b : Dec) : a.le b = true ↔ a.toRat ≤ b.toRat := by
  unfold Dec.le Dec.toRat
  simp only [decide_eq_true_eq]
  rw [← Dec.rescale_cast a.mant a.scale _ (le_max_left a.scale b.scale),
    ← Dec.rescale_cast b.mant b.scale _ (le_max_right a.scale b.scale),
    div_le_div_iff_of_pos_right (by positivity : (0 : ℚ) < 10 ^ max a.scale b.scale),
    Int.cast_le]


theorem charListLe_iff_le (as bs : List Char) : charListLe as bs = true ↔ as ≤ bs := by
  rw [← not_lt]
  induction as generalizing bs with
  | nil =>
    simp only [charListLe, true_iff]
    intro h
    cases h
  | cons a as ih =>
    cases bs with
    | nil =>
      simp only [charListLe, Bool.false_eq_true, false_iff, not_not]
      exact List.Lex.nil
    | cons b bs =>
      by_cases h1 : a.toNat < b.toNat
      · simp only [charListLe, if_pos h1, true_iff]
        intro h
        cases h with
        | cons h' => exact absurd h1 (lt_irrefl _)
        | rel hr => exact absurd (show a < b from h1) (asymm hr)
      · by_cases h2 : b.toNat < a.toNat
        · simp only [charListLe, if_neg h1, if_pos h2, Bool.false_eq_true, false_iff, not_not]
          exact List.Lex.rel h2
        · have hab : a = b := by
            have hv : a.toNat = b.toNat := Nat.le_antisymm (Nat.le_of_not_lt h2) (Nat.le_of_not_lt h1)
            exact Char.eq_of_val_eq (UInt32.eq_of_toBitVec_eq (BitVec.eq_of_toNat_eq hv))
          subst hab
          simp only [charListLe, if_neg h1]
          rw [ih bs]
          constructor
          · intro h hlex
            cases hlex with
            | cons h' => exact h h'
            | rel hr => exact absurd hr h1
          · intro h hlex
            exact h (List.Lex.cons hlex)

theorem strRel_iff_le (a b : String) : strRel a b ↔ a ≤ b := by
  rw [strRel, pyStrLe, charListLe_iff_le, String.le_iff_toList_le]

theorem strRel_trans (a b c : String) (hab : strRel a b) (hbc : strRel b c) : strRel a c :=
  (strRel_iff_le a c).mpr (le_trans ((strRel_iff_le a b).mp hab) ((strRel_iff_le b c).mp hbc))

theorem strRel_total (a b : String) : strRel a b ∨ strRel b a := by
  rcases le_total a b with h | h
  · exact Or.inl ((strRel_iff_le a b).mpr h)
  · exact Or.inr ((strRel_iff_le b a).mpr h)

theorem pySorted_sorted (l : List String) : (pySorted l).Sorted (· ≤ ·) := by
  have h := @List.sorted_insertionSort String strRel _ ⟨strRel_total⟩ ⟨strRel_trans⟩ l
  exact h.imp (fun hab => (strRel_iff_le _ _).mp hab)

theorem pySorted_perm (l : List String) : (pySorted l).Perm l :=
  List.perm_insertionSort strRel l

theorem pySorted_mem (x : String) (l : List String) : x ∈ pySorted l ↔ x ∈ l :=
  (pySorted_perm l).mem_iff

theorem pySorted_nodup {l : List String} (h : l.Nodup) : (pySorted l).Nodup :=
  (pySorted_perm l).nodup_iff.mpr h

theorem clean_zipcode_eq_gate {α : Type} (fn : String → List Record → Except PyErr α)
    (v : Val) (zips : List Record) :
    _clean_zipcode fn v zips = (gateOf v).bind (fun z => fn z zips) := by
  unfold _clean_zipcode gateOf
  cases v with
  | str s => cases h : truthy (.str s) <;> simp [h, Except.bind]
  | int i => cases h : truthy (.int i) <;> simp [h, Except.bind]
  | null => simp [truthy, Except.bind]

theorem gate_eq_spec (v : Val) : gateOf v = specGate v := by
  cases v with
  | str s =>
    by_cases hs : s = ""
    · subst hs
      rfl
    · have ht : truthy (.str s) = true := by simp [truthy, hs]
      by_cases h6 : s.length = 6
      · by_cases hd : ∀ c ∈ s.toList, isRegexDigit c = true
        · have hany : s.toList.any (fun c => !isRegexDigit c) = false := by
            simp only [List.any_eq_false, Bool.not_eq_true']
            exact fun c hc => (by simp [hd c hc] : isRegexDigit c ≠ false)
          simp [gateOf, specGate, _clean, _valid_zipcode_length, ht, hs, h6, hd, hany]
        · have hany : s.toList.any (fun c => !isRegexDigit c) = true := by
            simp only [List.any_eq_true]
            push_neg at hd
            rcases hd with ⟨c, hc, hnc⟩
            exact ⟨c, hc, by simp [hnc]⟩
          simp [gateOf, specGate, _clean, _valid_zipcode_length, ht, hs, h6, hd, hany]
      · simp [gateOf, specGate, _clean, _valid_zipcode_length, ht, hs, h6]
  | int i =>
    unfold gateOf specGate
    cases truthy (.int i) <;> simp
  | null =>
    unfold gateOf specGate
    simp [truthy]

theorem gate_ok_inv {v : Val} {z : String} (h : gateOf v = .ok z) :
    v = .str z ∧ z ≠ "" ∧ z.length = 6 ∧ ∀ c ∈ z.toList, isRegexDigit c = true := by
  rw [gate_eq_spec] at h
  cases v with
  | str s =>
    simp only [specGate] at h
    by_cases h1 : s = ""
    · rw [if_pos h1] at h
      exact absurd h (by simp)
    · rw [if_neg h1] at h
      by_cases h2 : s.length ≠ 6
      · rw [if_pos h2] at h
        exact absurd h (by simp)
      · rw [if_neg h2] at h
        by_cases h3 : ∀ c ∈ s.toList, isRegexDigit c = true
        · rw [if_neg (not_not_intro h3)] at h
          injection h with h'
          subst h'
          push_neg at h2
          exact ⟨rfl, h1, h2, h3⟩
        · rw [if_pos h3] at h
          exact absurd h (by simp)
  | int i => exact absurd h (by simp [specGate])
  | null => exact absurd h (by simp [specGate])

theorem gate_revalidate {v : Val} {z : String} (h : gateOf v = .ok z) :
    gateOf (.str z) = .ok z := by
  obtain ⟨hv, hne, hlen, hdig⟩ := gate_ok_inv h
  rw [gate_eq_spec]
  simp only [specGate, if_neg hne, hlen]
  rw [if_neg (by simp), if_neg (not_not_intro hdig)]

theorem matchingScan_eq_filter (z : String) (zips : List Record) :
    matchingScan z zips =
      zips.filter (fun e => e.hasKey "Pincode" && decide (pyStr (e.getD "Pincode" .null) = z)) := by
  induction zips with
  | nil => rfl
  | cons e rest ih =>
    unfold matchingScan
    by_cases h1 : e.hasKey "Pincode" = true
    · by_cases h2 : pyStr (e.getD "Pincode" .null) = z
      · simp [List.filter_cons, h1, h2, ih]
      · simp [List.filter_cons, h1, h2, ih]
    · simp [List.filter_cons, h1, ih]

theorem mem_setAdd {α : Type} [DecidableEq α] (acc : List α) (x y : α) :
    y ∈ setAdd acc x ↔ y ∈ acc ∨ y = x := by
  unfold setAdd
  by_cases h : x ∈ acc
  · rw [if_pos h]
    constructor
    · exact Or.inl
    · rintro (hy | rfl)
      · exact hy
      · exact h
  · rw [if_neg h]
    simp

theorem setAdd_nodup {α : Type} [DecidableEq α] {acc : List α} (h : acc.Nodup) (x : α) :
    (setAdd acc x).Nodup := by
  unfold setAdd
  by_cases hx : x ∈ acc
  · rwa [if_pos hx]
  · rw [if_neg hx]
    simp [List.nodup_append, h, hx]

theorem districtLoop_mem (z : String) (zips : List Record) (acc : List Val) (v : Val) :
    v ∈ districtLoop z acc zips ↔
      v ∈ acc ∨ (truthy v = true ∧ ∃ e ∈ zips, e.hasKey "Pincode" = true ∧
        pyStr (e.getD "Pincode" .null) = z ∧ e.get? "District" = some v) := by
  induction zips generalizing acc with
  | nil => simp [districtLoop]
  | cons e rest ih =>
    unfold districtLoop
    by_cases hc : e.hasKey "Pincode" = true ∧ pyStr (e.getD "Pincode" .null) = z
    · rw [if_pos hc]
      cases hd : e.get? "District" with
      | none =>
        rw [if_neg (by simp [truthyO])]
        rw [ih]
        constructor
        · rintro (ha | ⟨ht, e', he', h1, h2, h3⟩)
          · exact Or.inl ha
          · exact Or.inr ⟨ht, e', List.mem_cons_of_mem _ he', h1, h2, h3⟩
        · rintro (ha | ⟨ht, e', he', h1, h2, h3⟩)
          · exact Or.inl ha
          · rcases List.mem_cons.mp he' with rfl | he''
            · rw [hd] at h3
              cases h3
            · exact Or.inr ⟨ht, e', he'', h1, h2, h3⟩
      | some d =>
        by_cases ht : truthy d = true
        · rw [if_pos (by simp [truthyO, ht])]
          simp only [Option.getD]
          rw [ih]
          constructor
          · rintro (ha | ⟨htv, e', he', h1, h2, h3⟩)
            · rcases (mem_setAdd acc d v).mp ha with ha' | rfl
              · exact Or.inl ha'
              · exact Or.inr ⟨ht, e, List.mem_cons_self _ _, hc.1, hc.2, hd⟩
            · exact Or.inr ⟨htv, e', List.mem_cons_of_mem _ he', h1, h2, h3⟩
          · rintro (ha | ⟨htv, e', he', h1, h2, h3⟩)
            · exact Or.inl ((mem_setAdd acc d v).mpr (Or.inl ha))
            · rcases List.mem_cons.mp he' with rfl | he''
              · rw [hd] at h3
                injection h3 with h3'
                subst h3'
                exact Or.inl ((mem_setAdd acc d d).mpr (Or.inr rfl))
              · exact Or.inr ⟨htv, e', he'', h1, h2, h3⟩
        · rw [if_neg (by simp [truthyO, ht])]
          rw [ih]
          constructor
          · rintro (ha | ⟨htv, e', he', h1, h2, h3⟩)
            · exact Or.inl ha
            · exact Or.inr ⟨htv, e', List.mem_cons_of_mem _ he', h1, h2, h3⟩
          · rintro (ha | ⟨htv, e', he', h1, h2, h3⟩)
            · exact Or.inl ha
            · rcases List.mem_cons.mp he' with rfl | he''
              · rw [hd] at h3
                injection h3 with h3'
                subst h3'
                exact absurd htv ht
              · exact Or.inr ⟨htv, e', he'', h1, h2, h3⟩
    · rw [if_neg hc]
      rw [ih]
      constructor
      · rintro (ha | ⟨htv, e', he', h1, h2, h3⟩)
        · exact Or.inl ha
        · exact Or.inr ⟨htv, e', List.mem_cons_of_mem _ he', h1, h2, h3⟩
      · rintro (ha | ⟨htv, e', he', h1, h2, h3⟩)
        · exact Or.inl ha
        · rcases List.mem_cons.mp he' with rfl | he''
          · exact absurd ⟨h1, h2⟩ hc
          · exact Or.inr ⟨htv, e', he'', h1, h2, h3⟩

theorem districtLoop_nodup (z : String) (zips : List Record) {acc : List Val} (h : acc.Nodup) :
    (districtLoop z acc zips).Nodup := by
  induction zips generalizing acc with
  | nil => exact h
  | cons e rest ih =>
    unfold districtLoop
    by_cases hc : e.hasKey "Pincode" = true ∧ pyStr (e.getD "Pincode" .null) = z
    · rw [if_pos hc]
      by_cases ht : truthyO (e.get? "District") = true
      · rw [if_pos ht]
        exact ih (setAdd_nodup h _)
      · rw [if_neg ht]
        exact ih h
    · rw [if_neg hc]
      exact ih h

theorem dictGet_append_new {β : Type} {m : List (Val × β)} {k : Val} {v : β}
    (h : ∀ kv ∈ m, kv.1 ≠ k) (k' : Val) :
    dictGet? (m ++ [(k, v)]) k' = if k' = k then some v else dictGet? m k' := by
  induction m with
  | nil =>
    by_cases hk : k' = k
    · simp [dictGet?, List.find?, hk]
    · have hkk : (decide (k = k')) = false := by simp [Ne.symm hk]
      simp [dictGet?, List.find?, hkk, hk]
  | cons p rest ih =>
    by_cases hp : p.1 = k'
    · have hk : k' ≠ k := fun hh => h p (List.mem_cons_self _ _) (hp.trans hh)
      simp [dictGet?, List.find?, hp, hk]
    · have hrest := ih (fun kv hkv => h kv (List.mem_cons_of_mem _ hkv))
      simp only [dictGet?, List.find?, List.cons_append] at hrest ⊢
      rw [show (decide (p.1 = k')) = false from by simp [hp]]
      exact hrest

theorem dictGet_map_overwrite_ne {β : Type} (m : List (Val × β)) {k k' : Val} (v : β)
    (h : k' ≠ k) :
    dictGet? (m.map (fun kv => if kv.1 = k then (k, v) else kv)) k' = dictGet? m k' := by
  induction m with
  | nil => rfl
  | cons p rest ih =>
    by_cases hp : p.1 = k
    · simp only [List.map_cons, if_pos hp, dictGet?, List.find?]
      rw [show (decide ((k, v).1 = k')) = false from by simp [Ne.symm h],
        show (decide (p.1 = k')) = false from by simp [hp, Ne.symm h]]
      exact ih
    · simp only [List.map_cons, if_neg hp, dictGet?, List.find?]
      cases hpk : decide (p.1 = k') with
      | true => rfl
      | false => exact ih

theorem dictGet_map_overwrite_hit {β : Type} {m : List (Val × β)} {k : Val} {v : β}
    (h : m.any (fun kv => decide (kv.1 = k)) = true) :
    dictGet? (m.map (fun kv => if kv.1 = k then (k, v) else kv)) k = some v := by
  induction m with
  | nil => cases h
  | cons p rest ih =>
    by_cases hp : p.1 = k
    · simp [dictGet?, List.find?, hp]
    · have hrest : rest.any (fun kv => decide (kv.1 = k)) = true := by
        simp only [List.any_cons, Bool.or_eq_true] at h
        rcases h with h | h
        · exact absurd (by simpa using h) hp
        · exact h
      simp only [List.map_cons, if_neg hp, dictGet?, List.find?]
      rw [show (decide (p.1 = k)) = false from by simp [hp]]
      exact ih hrest

theorem dictGet_dictSet {β : Type} (m : List (Val × β)) (k k' : Val) (v : β) :
    dictGet? (dictSet m k v) k' = if k' = k then some v else dictGet? m k' := by
  unfold dictSet
  cases hk : m.any (fun kv => decide (kv.1 = k)) with
  | false =>
    have hnew : ∀ kv ∈ m, kv.1 ≠ k := by
      intro kv hkv
      have := List.any_eq_false.mp hk kv hkv
      simpa using this
    rw [if_neg (by simp [hk])]
    exact dictGet_append_new hnew k'
  | true =>
    rw [if_pos (by simp [hk])]
    by_cases h : k' = k
    · subst h
      rw [if_pos rfl]
      exact dictGet_map_overwrite_hit hk
    · rw [if_neg h]
      exact dictGet_map_overwrite_ne m v h

theorem dictSet_keys_nodup {β : Type} {m : List (Val × β)}
    (h : (m.map Prod.fst).Nodup) (k : Val) (v : β) :
    ((dictSet m k v).map Prod.fst).Nodup := by
  unfold dictSet
  by_cases hk : m.any (fun kv => decide (kv.1 = k)) = true
  · rw [if_pos hk]
    have hkeys : (m.map (fun kv => if kv.1 = k then (k, v) else kv)).map Prod.fst
        = m.map Prod.fst := by
      rw [List.map_map]
      apply List.map_congr_left
      intro kv _
      by_cases hkv : kv.1 = k <;> simp [hkv]
    rw [hkeys]
    exact h
  · rw [if_neg hk]
    have hk' : m.any (fun kv => decide (kv.1 = k)) = false := by
      cases hany : m.any (fun kv => decide (kv.1 = k)) with
      | true => exact absurd hany hk
      | false => rfl
    have hnotin : k ∉ m.map Prod.fst := by
      intro hmem
      rcases List.mem_map.mp hmem with ⟨kv, hkv, hfst⟩
      have := List.any_eq_false.mp hk' kv hkv
      simp [hfst] at this
    simp [List.nodup_append, h, hnotin]

theorem lastNamed_cons (k : Val) (e : Record) (rest : List Record) :
    lastNamed k (e :: rest) =
      match lastNamed k rest with
      | some r => some r
      | none => if nameOf e = k then some e else none := rfl

theorem coordsLoop_get (ms : List Record) (acc : List (Val × (String × String))) (k : Val) :
    dictGet? (coordsLoop acc ms) k =
      match lastNamed k ms with
      | some e => some (coordEntry e)
      | none => dictGet? acc k := by
  induction ms generalizing acc with
  | nil => rfl
  | cons e rest ih =>
    show dictGet? (coordsLoop (dictSet acc (nameOf e) (coordEntry e)) rest) k = _
    rw [ih, lastNamed_cons]
    cases hl : lastNamed k rest with
    | some r => rfl
    | none =>
      rw [dictGet_dictSet]
      by_cases hk : nameOf e = k
      · rw [if_pos (hk.symm), if_pos hk]
      · rw [if_neg (fun hh => hk hh.symm), if_neg hk]

theorem coordsLoop_keys_nodup (ms : List Record) {acc : List (Val × (String × String))}
    (h : (acc.map Prod.fst).Nodup) : ((coordsLoop acc ms).map Prod.fst).Nodup := by
  induction ms generalizing acc with
  | nil => exact h
  | cons e rest ih => exact ih (dictSet_keys_nodup h _ _)

theorem lastNamed_isSome_iff (k : Val) (ms : List Record) :
    (lastNamed k ms).isSome = true ↔ ∃ e ∈ ms, nameOf e = k := by
  induction ms with
  | nil => simp [lastNamed]
  | cons e rest ih =>
    rw [lastNamed_cons]
    cases hl : lastNamed k rest with
    | some r =>
      simp only [Option.isSome_some, true_iff]
      rcases ih.mp (by rw [hl]; rfl) with ⟨e', he', hn⟩
      exact ⟨e', List.mem_cons_of_mem _ he', hn⟩
    | none =>
      rw [hl] at ih
      by_cases hk : nameOf e = k
      · simp only [if_pos hk, Option.isSome_some, true_iff]
        exact ⟨e, List.mem_cons_self _ _, hk⟩
      · simp only [if_neg hk, Option.isSome_none, Bool.false_eq_true, false_iff]
        rintro ⟨e', he', hn⟩
        rcases List.mem_cons.mp he' with rfl | he''
        · exact hk hn
        · simp at ih
          exact ih e' he'' hn

theorem nearbyScan_cons_nokey {cLat cLon maxd : Dec} {acc : List String}
    {r : Record} {rest : List Record} (hk : r.hasKey "Pincode" = false) :
    nearbyScan cLat cLon maxd acc (r :: rest) = nearbyScan cLat cLon maxd acc rest := by
  simp [nearbyScan, hk]

theorem nearbyScan_cons_badlat {cLat cLon maxd : Dec} {acc : List String}
    {r : Record} {rest : List Record} (hk : r.hasKey "Pincode" = true) {m : String}
    (hla : pyFloat (r.getD "Latitude" (.str "")) = .error (.valueError m)) :
    nearbyScan cLat cLon maxd acc (r :: rest) = nearbyScan cLat cLon maxd acc rest := by
  simp [nearbyScan, hk, hla]

theorem nearbyScan_cons_badlon {cLat cLon maxd : Dec} {acc : List String}
    {r : Record} {rest : List Record} (hk : r.hasKey "Pincode" = true) {la : Dec} {m : String}
    (hla : pyFloat (r.getD "Latitude" (.str "")) = .ok la)
    (hlo : pyFloat (r.getD "Longitude" (.str "")) = .error (.valueError m)) :
    nearbyScan cLat cLon maxd acc (r :: rest) = nearbyScan cLat cLon maxd acc rest := by
  simp [nearbyScan, hk, hla, hlo]

theorem nearbyScan_cons_typeerr_lat {cLat cLon maxd : Dec} {acc : List String}
    {r : Record} {rest : List Record} (hk : r.hasKey "Pincode" = true) {m : String}
    (hla : pyFloat (r.getD "Latitude" (.str "")) = .error (.typeError m)) :
    nearbyScan cLat cLon maxd acc (r :: rest) = .error (.typeError m) := by
  simp [nearbyScan, hk, hla]

theorem nearbyScan_cons_typeerr_lon {cLat cLon maxd : Dec} {acc : List String}
    {r : Record} {rest : List Record} (hk : r.hasKey "Pincode" = true) {la : Dec} {m : String}
    (hla : pyFloat (r.getD "Latitude" (.str "")) = .ok la)
    (hlo : pyFloat (r.getD "Longitude" (.str "")) = .error (.typeError m)) :
    nearbyScan cLat cLon maxd acc (r :: rest) = .error (.typeError m) := by
  simp [nearbyScan, hk, hla, hlo]

theorem nearbyScan_cons_add {cLat cLon maxd : Dec} {acc : List String}
    {r : Record} {rest : List Record} (hk : r.hasKey "Pincode" = true) {la lo : Dec}
    (hla : pyFloat (r.getD "Latitude" (.str "")) = .ok la)
    (hlo : pyFloat (r.getD "Longitude" (.str "")) = .ok lo)
    (hd : (Dec.add (Dec.abs (Dec.sub la cLat)) (Dec.abs (Dec.sub lo cLon))).le maxd = true) :
    nearbyScan cLat cLon maxd acc (r :: rest) =
      nearbyScan cLat cLon maxd (setAdd acc (pyStr (r.getD "Pincode" .null))) rest := by
  simp [nearbyScan, hk, hla, hlo, hd]

theorem nearbyScan_cons_noadd {cLat cLon maxd : Dec} {acc : List String}
    {r : Record} {rest : List Record} (hk : r.hasKey "Pincode" = true) {la lo : Dec}
    (hla : pyFloat (r.getD "Latitude" (.str "")) = .ok la)
    (hlo : pyFloat (r.getD "Longitude" (.str "")) = .ok lo)
    (hd : (Dec.add (Dec.abs (Dec.sub la cLat)) (Dec.abs (Dec.sub lo cLon))).le maxd = false) :
    nearbyScan cLat cLon maxd acc (r :: rest) = nearbyScan cLat cLon maxd acc rest := by
  simp [nearbyScan, hk, hla, hlo, hd]

theorem nearbyScan_cons_cases (cLat cLon maxd : Dec) (acc : List String)
    (r : Record) (rest : List Record) :
    nearbyScan cLat cLon maxd acc (r :: rest) = nearbyScan cLat cLon maxd acc rest ∨
    nearbyScan cLat cLon maxd acc (r :: rest)
      = nearbyScan cLat cLon maxd (setAdd acc (pyStr (r.getD "Pincode" .null))) rest ∨
    ∃ m, nearbyScan cLat cLon maxd acc (r :: rest) = .error (.typeError m) := by
  by_cases hk : r.hasKey "Pincode" = true
  · cases hla : pyFloat (r.getD "Latitude" (.str "")) with
    | error e =>
      cases e with
      | valueError m => exact Or.inl (nearbyScan_cons_badlat hk hla)
      | typeError m => exact Or.inr (Or.inr ⟨m, nearbyScan_cons_typeerr_lat hk hla⟩)
    | ok la =>
      cases hlo : pyFloat (r.getD "Longitude" (.str "")) with
      | error e =>
        cases e with
        | valueError m => exact Or.inl (nearbyScan_cons_badlon hk hla hlo)
        | typeError m => exact Or.inr (Or.inr ⟨m, nearbyScan_cons_typeerr_lon hk hla hlo⟩)
      | ok lo =>
        cases hd : (Dec.add (Dec.abs (Dec.sub la cLat)) (Dec.abs (Dec.sub lo cLon))).le maxd with
        | true => exact Or.inr (Or.inl (nearbyScan_cons_add hk hla hlo hd))
        | false => exact Or.inl (nearbyScan_cons_noadd hk hla hlo hd)
  · exact Or.inl (nearbyScan_cons_nokey (by simpa using hk))

theorem nearbyScan_ok_subset {cLat cLon maxd : Dec} {zips : List Record}
    {acc out : List String} (h : nearbyScan cLat cLon maxd acc zips = .ok out) :
    ∀ x ∈ acc, x ∈ out := by
  induction zips generalizing acc with
  | nil =>
    injection h with h'
    subst h'
    exact fun x hx => hx
  | cons r rest ih =>
    rcases nearbyScan_cons_cases cLat cLon maxd acc r rest with hstep | hstep | ⟨m, hstep⟩
    · rw [hstep] at h
      exact ih h
    · rw [hstep] at h
      intro x hx
      exact ih h x ((mem_setAdd _ _ _).mpr (Or.inl hx))
    · rw [hstep] at h
      cases h

theorem nearbyScan_ok_nodup {cLat cLon maxd : Dec} {zips : List Record}
    {acc out : List String} (hacc : acc.Nodup)
    (h : nearbyScan cLat cLon maxd acc zips = .ok out) : out.Nodup := by
  induction zips generalizing acc with
  | nil =>
    injection h with h'
    subst h'
    exact hacc
  | cons r rest ih =>
    rcases nearbyScan_cons_cases cLat cLon maxd acc r rest with hstep | hstep | ⟨m, hstep⟩
    · rw [hstep] at h
      exact ih hacc h
    · rw [hstep] at h
      exact ih (setAdd_nodup hacc _) h
    · rw [hstep] at h
      cases h

theorem nearbyScan_ok_mem {cLat cLon maxd : Dec} {zips : List Record}
    {acc out : List String} (h : nearbyScan cLat cLon maxd acc zips = .ok out)
    {r : Record} (hr : r ∈ zips) (hk : r.hasKey "Pincode" = true) {la lo : Dec}
    (hla : pyFloat (r.getD "Latitude" (.str "")) = .ok la)
    (hlo : pyFloat (r.getD "Longitude" (.str "")) = .ok lo)
    (hd : (Dec.add (Dec.abs (Dec.sub la cLat)) (Dec.abs (Dec.sub lo cLon))).le maxd = true) :
    pyStr (r.getD "Pincode" .null) ∈ out := by
  induction zips generalizing acc with
  | nil => cases hr
  | cons r0 rest ih =>
    rcases List.mem_cons.mp hr with rfl | hr'
    · rw [nearbyScan_cons_add hk hla hlo hd] at h
      exact nearbyScan_ok_subset h _ ((mem_setAdd _ _ _).mpr (Or.inr rfl))
    · rcases nearbyScan_cons_cases cLat cLon maxd acc r0 rest with hstep | hstep | ⟨m, hstep⟩
      · rw [hstep] at h
        exact ih h hr'
      · rw [hstep] at h
        exact ih h hr'
      · rw [hstep] at h
        cases h

theorem nearbyFn_ok_inv {z : String} {maxd : Dec} {zips : List Record} {l : List String}
    (h : nearbyFn z maxd zips = .ok l) :
    (centerEntries z zips = [] ∧ l = []) ∨
    (∃ c cs clat clon pins, centerEntries z zips = c :: cs ∧
      pyFloat (c.getD "Latitude" .null) = .ok clat ∧
      pyFloat (c.getD "Longitude" .null) = .ok clon ∧
      nearbyScan clat clon maxd [] zips = .ok pins ∧
      l = pySorted (if z ∈ pins then pins.erase z else pins)) := by
  unfold nearbyFn at h
  cases hc : centerEntries z zips with
  | nil =>
    rw [hc] at h
    injection h with h'
    exact Or.inl ⟨rfl, h'.symm⟩
  | cons c cs =>
    rw [hc] at h
    replace h : (pyFloat (c.getD "Latitude" .null)).bind (fun centerLat =>
        (pyFloat (c.getD "Longitude" .null)).bind (fun centerLon =>
          Except.map (fun pins => pySorted (if z ∈ pins then pins.erase z else pins))
            (nearbyScan centerLat centerLon maxd [] zips))) = .ok l := h
    cases hlat : pyFloat (c.getD "Latitude" .null) with
    | error e =>
      rw [hlat] at h
      exact absurd h (by simp [Except.bind])
    | ok clat =>
      rw [hlat] at h
      simp only [Except.bind] at h
      cases hlon : pyFloat (c.getD "Longitude" .null) with
      | error e =>
        rw [hlon] at h
        exact absurd h (by simp [Except.bind])
      | ok clon =>
        rw [hlon] at h
        simp only [Except.bind] at h
        cases hscan : nearbyScan clat clon maxd [] zips with
        | error e =>
          rw [hscan] at h
          exact absurd h (by simp [Except.map])
        | ok pins =>
          rw [hscan] at h
          simp only [Except.map] at h
          injection h with h'
          exact Or.inr ⟨c, cs, clat, clon, pins, rfl, hlat, hlon, hscan, h'.symm⟩

theorem centerPred_spec {z : String} {r : Record} (h : centerPred z r = true) :
    r.hasKey "Pincode" = true ∧ pyStr (r.getD "Pincode" .null) = z ∧
    truthyO (r.get? "Latitude") = true ∧ truthyO (r.get? "Longitude") = true := by
  simp only [centerPred, Bool.and_eq_true, decide_eq_true_eq] at h
  exact ⟨h.1.1.1, h.1.1.2, h.1.2, h.2⟩

theorem getD_eq_of_truthy {r : Record} {k : String} (h : truthyO (r.get? k) = true)
    (d d' : Val) : r.getD k d = r.getD k d' := by
  unfold Record.getD
  cases hg : r.get? k with
  | none =>
    rw [hg] at h
    cases h
  | some v => rfl

theorem dec_manhattan_le {a1 b1 a2 b2 maxd : Dec} :
    (Dec.add (Dec.abs (Dec.sub a1 b1)) (Dec.abs (Dec.sub a2 b2))).le maxd = true ↔
      |a1.toRat - b1.toRat| + |a2.toRat - b2.toRat| ≤ maxd.toRat := by
  rw [Dec.le_iff_toRat, Dec.toRat_add, Dec.toRat_abs, Dec.toRat_abs, Dec.toRat_sub,
    Dec.toRat_sub]

theorem pyJoin_ok {sep : String} {xs : List Val} (h : ∀ v ∈ xs, v.isStr = true) :
    pyJoin sep xs = .ok (String.intercalate sep (xs.map Val.strVal)) := by
  unfold pyJoin
  rw [if_pos (List.all_eq_true.mpr (fun v hv => h v hv))]

theorem pyJoin_ne_notFound (sep : String) (xs : List Val) :
    pyJoin sep xs ≠ .error notFoundErr := by
  unfold pyJoin
  by_cases h : xs.all Val.isStr = true
  · rw [if_pos h]
    simp
  · rw [if_neg h]
    simp [notFoundErr]

theorem matching_str_of_valid {z : String} (h : gateOf (.str z) = .ok z)
    (zips : List Record) : matching (.str z) zips = .ok (matchingScan z zips) := by
  rw [show matching (Val.str z) zips = _clean_zipcode matchingFn (Val.str z) zips from rfl,
    clean_zipcode_eq_gate, h]
  rfl

theorem mem_of_head? {α : Type} {l : List α} {a : α} (h : l.head? = some a) : a ∈ l := by
  cases l with
  | nil => cases h
  | cons x xs =>
    injection h with h'
    subst h'
    exact List.mem_cons_self _ _

/-- C1 (amended): for every input value, threshold and dataset, the
validation shared by the five public query operations behaves exactly as
`specGate` describes — `TypeError` iff the input is empty or not a
string, otherwise `ValueError` iff the length is not exactly 6 or some
character is not a digit of the regex class `\d` (the claim said "ASCII
digit"; the code's `[^\d]` accepts any Unicode decimal digit), otherwise
the code passes through unchanged — and every public operation factors
through that gate, so a validation failure is raised uniformly in the
dataset, before any scan of it executes. -/
theorem C1_validation_gate (v : Val) (maxd : Dec) (zips : List Record) :
    gateOf v = specGate v ∧
    matching v zips = (specGate v).bind (fun z => matchingFn z zips) ∧
    isvalid v zips = (specGate v).bind (fun z => isvalidFn z zips) ∧
    districtmatch v zips = (specGate v).bind (fun z => districtmatchFn z zips) ∧
    coordinates v zips = (specGate v).bind (fun z => coordinatesFn z zips) ∧
    nearby v maxd zips = (specGate v).bind (fun z => nearbyFn z maxd zips) := by
  refine ⟨gate_eq_spec v, ?_, ?_, ?_, ?_, ?_⟩ <;> rw [← gate_eq_spec]
  · exact clean_zipcode_eq_gate matchingFn v zips
  · exact clean_zipcode_eq_gate isvalidFn v zips
  · exact clean_zipcode_eq_gate districtmatchFn v zips
  · exact clean_zipcode_eq_gate coordinatesFn v zips
  · exact clean_zipcode_eq_gate (fun z zs => nearbyFn z maxd zs) v zips

/-- C1 counterexample: the six Arabic-Indic digits U+0660…U+0665 form a
nonempty 6-character string none of whose characters is an ASCII digit,
so under the claim as stated validation must raise the `FormatKind`
`ValueError`; the code instead validates the string unchanged (Python's
`\d` matches Unicode decimal digits) and `matching` proceeds to scan. -/
theorem C1_counterexample :
    ("٠١٢٣٤٥" : String).length = 6 ∧
    ("٠١٢٣٤٥" : String) ≠ "" ∧
    (∀ c ∈ ("٠١٢٣٤٥" : String).toList, c.isDigit = false) ∧
    gateOf (.str "٠١٢٣٤٥") = .ok "٠١٢٣٤٥" ∧
    matching (.str "٠١٢٣٤٥") [] = .ok [] :=
  ⟨by decide, by decide, by decide, by decide, by decide⟩

/-- C2: for every dataset and validated 6-digit code, `matching` returns
exactly those records whose `"Pincode"` field, converted to its string
form, equals the validated input — the dataset's filter, in dataset
order, duplicates preserved. -/
theorem C2_matching_is_filter (v : Val) (z : String) (zips : List Record)
    (h : gateOf v = .ok z) :
    matching v zips =
      .ok (zips.filter
        (fun e => e.hasKey "Pincode" && decide (pyStr (e.getD "Pincode" .null) = z))) := by
  rw [show matching v zips = _clean_zipcode matchingFn v zips from rfl,
    clean_zipcode_eq_gate, h]
  show matchingFn z zips = _
  unfold matchingFn
  rw [matchingScan_eq_filter]

/-- Witness for C2 on a dataset holding the queried code twice. -/
theorem C2_matching_is_filter_witness :
    gateOf (.str "110001") = .ok "110001" ∧
    matching (.str "110001")
        [[("Pincode", Val.str "110001")], [("Pincode", Val.str "999999")],
         [("Pincode", Val.str "110001")]] =
      .ok ([[("Pincode", Val.str "110001")], [("Pincode", Val.str "999999")],
         [("Pincode", Val.str "110001")]].filter
        (fun e => e.hasKey "Pincode" && decide (pyStr (e.getD "Pincode" .null) = "110001"))) :=
  ⟨by decide, C2_matching_is_filter (.str "110001") "110001" _ (by decide)⟩

/-- C10: the NotFoundKind failure of `districtmatch` and the FormatKind
failures of the validation gate are raised with the same exception class
(`ValueError`), so a caller observing only the exception type cannot tell
a malformed pincode from a pincode with no district data; only the
TypeKind failure (`TypeError`) is a distinguishable type. -/
theorem C10_exception_classes (s : String) (e : PyErr) (z : String) (zips : List Record)
    (hfmt : _clean s = .error e)
    (hnf : districtmatchFn z zips = .error notFoundErr) :
    e.exnClass = .valueErrorClass ∧
    notFoundErr.exnClass = .valueErrorClass ∧
    e.exnClass = notFoundErr.exnClass ∧
    typeErrPin.exnClass = .typeErrorClass ∧
    typeErrPin.exnClass ≠ notFoundErr.exnClass := by
  have he : e = lenErrPin ∨ e = charErrPin := by
    unfold _clean at hfmt
    by_cases h1 : s.length ≠ _valid_zipcode_length
    · rw [if_pos h1] at hfmt
      injection hfmt with h'
      exact Or.inl h'.symm
    · rw [if_neg h1] at hfmt
      by_cases h2 : s.toList.any (fun c => !isRegexDigit c) = true
      · rw [if_pos h2] at hfmt
        injection hfmt with h'
        exact Or.inr h'.symm
      · rw [if_neg h2] at hfmt
        cases hfmt
  rcases he with rfl | rfl
  · exact ⟨rfl, rfl, rfl, rfl, by decide⟩
  · exact ⟨rfl, rfl, rfl, rfl, by decide⟩

/-- Witness for C10 at a wrong-length pincode and an empty dataset. -/
theorem C10_exception_classes_witness :
    _clean "1234" = .error lenErrPin ∧
    districtmatchFn "999999" [] = .error notFoundErr ∧
    lenErrPin.exnClass = notFoundErr.exnClass :=
  ⟨by decide, by decide,
    (C10_exception_classes "1234" lenErrPin "999999" [] (by decide) (by decide)).2.2.1⟩

/-- C5: for every dataset and validated code, `districtmatch` collects
into a set exactly the distinct truthy (non-empty) `"District"` values of
records whose stringified code equals the input, raises the NotFoundKind
`ValueError` iff that set is empty (no matching record, or none carrying
a district), and otherwise — when the collected districts are strings, as
the data model stores them — returns the set's elements joined by
`", "`. -/
theorem C5_districtmatch (v : Val) (z : String) (zips : List Record)
    (hg : gateOf v = .ok z)
    (hstr : ∀ d ∈ districtLoop z [] zips, d.isStr = true) :
    (districtmatch v zips = .error notFoundErr ↔ districtLoop z [] zips = []) ∧
    (districtLoop z [] zips).Nodup ∧
    (∀ d, d ∈ districtLoop z [] zips ↔
      truthy d = true ∧ ∃ e ∈ zips, e.hasKey "Pincode" = true ∧
        pyStr (e.getD "Pincode" .null) = z ∧ e.get? "District" = some d) ∧
    (districtLoop z [] zips ≠ [] →
      districtmatch v zips =
        .ok (String.intercalate ", " ((districtLoop z [] zips).map Val.strVal))) := by
  have hred : districtmatch v zips = districtmatchFn z zips := by
    rw [show districtmatch v zips = _clean_zipcode districtmatchFn v zips from rfl,
      clean_zipcode_eq_gate, hg]
    rfl
  refine ⟨?_, districtLoop_nodup z zips List.nodup_nil, ?_, ?_⟩
  · rw [hred]
    unfold districtmatchFn
    by_cases hempty : districtLoop z [] zips = []
    · simp [hempty]
    · rw [if_neg (by simpa [List.isEmpty_iff] using hempty)]
      constructor
      · intro hjoin
        exact absurd hjoin (pyJoin_ne_notFound _ _)
      · intro h
        exact absurd h hempty
  · intro d
    simpa using districtLoop_mem z zips [] d
  · intro hne
    rw [hred]
    unfold districtmatchFn
    rw [if_neg (by simpa [List.isEmpty_iff] using hne)]
    exact pyJoin_ok hstr

/-- Witness for C5 on the specification's scenario dataset: two records
of code `"110001"` sharing the district `"New Delhi"`. -/
theorem C5_districtmatch_witness :
    districtmatch (.str "110001")
        [[("Pincode", Val.str "110001"), ("District", Val.str "New Delhi")],
         [("Pincode", Val.str "110001"), ("District", Val.str "New Delhi")]] =
      .ok "New Delhi" := by
  have h := (C5_districtmatch (.str "110001") "110001"
    [[("Pincode", Val.str "110001"), ("District", Val.str "New Delhi")],
     [("Pincode", Val.str "110001"), ("District", Val.str "New Delhi")]]
    (by decide) (by decide)).2.2.2 (by decide)
  rw [h]
  decide

/-- C6: for every dataset and validated code, `coordinates` returns the
mapping built from the records `matching` returns, keyed by the record's
`"Name"` (with the sentinel `"Unknown"` when absent) with no duplicate
keys; each entry holds the record's latitude and longitude converted to
strings (empty string when absent, no numeric parsing), and the entry of
a name is determined by the last record of that name in dataset order
(last-write-wins). -/
theorem C6_coordinates (v : Val) (z : String) (zips : List Record)
    (hg : gateOf v = .ok z) :
    coordinates v zips = .ok (coordsLoop [] (matchingScan z zips)) ∧
    ((coordsLoop [] (matchingScan z zips)).map Prod.fst).Nodup ∧
    (∀ k, dictGet? (coordsLoop [] (matchingScan z zips)) k =
      (lastNamed k (matchingScan z zips)).map (fun e => coordEntry e)) := by
  have hz := gate_revalidate hg
  have hm := matching_str_of_valid hz zips
  refine ⟨?_, coordsLoop_keys_nodup _ (by simp), ?_⟩
  · rw [show coordinates v zips = _clean_zipcode coordinatesFn v zips from rfl,
      clean_zipcode_eq_gate, hg]
    show coordinatesFn z zips = _
    unfold coordinatesFn
    rw [hm]
    rfl
  · intro k
    rw [coordsLoop_get]
    cases lastNamed k (matchingScan z zips) <;> rfl

/-- Witness for C6 on a dataset where two matching records share the
name `"A"`: the later record's coordinates win. -/
theorem C6_coordinates_witness :
    coordinates (.str "110001")
        [[("Pincode", Val.str "110001"), ("Name", Val.str "A"),
          ("Latitude", Val.str "1"), ("Longitude", Val.str "2")],
         [("Pincode", Val.str "110001"), ("Name", Val.str "A"),
          ("Latitude", Val.str "3"), ("Longitude", Val.str "4")]] =
      .ok [(Val.str "A", ("3", "4"))] := by
  have h := (C6_coordinates (.str "110001") "110001"
    [[("Pincode", Val.str "110001"), ("Name", Val.str "A"),
      ("Latitude", Val.str "1"), ("Longitude", Val.str "2")],
     [("Pincode", Val.str "110001"), ("Name", Val.str "A"),
      ("Latitude", Val.str "3"), ("Longitude", Val.str "4")]] (by decide)).1
  rw [h]
  decide

/-- C7: for every dataset and validated 6-digit code that matches no
record's stringified code: `matching` returns the empty list, `isvalid`
returns `false`, `districtmatch` raises the NotFoundKind `ValueError`,
`coordinates` returns the empty mapping, and `nearby` returns the empty
list. -/
theorem C7_absent_code (v : Val) (z : String) (maxd : Dec) (zips : List Record)
    (hg : gateOf v = .ok z)
    (habs : ∀ e ∈ zips, e.hasKey "Pincode" = true → pyStr (e.getD "Pincode" .null) ≠ z) :
    matching v zips = .ok [] ∧
    isvalid v zips = .ok false ∧
    districtmatch v zips = .error notFoundErr ∧
    coordinates v zips = .ok [] ∧
    nearby v maxd zips = .ok [] := by
  have hz := gate_revalidate hg
  have hscan : matchingScan z zips = [] := by
    rw [matchingScan_eq_filter]
    apply List.filter_eq_nil_iff.mpr
    intro e he
    by_cases hk : e.hasKey "Pincode" = true
    · simp [hk, habs e he hk]
    · simp [Bool.not_eq_true] at hk
      simp [hk]
  have hloop : districtLoop z [] zips = [] := by
    apply List.eq_nil_iff_forall_not_mem.mpr
    intro d hd
    have hmem := (districtLoop_mem z zips [] d).mp hd
    simp only [List.not_mem_nil, false_or] at hmem
    rcases hmem with ⟨-, e, he, hk, hcode, -⟩
    exact habs e he hk hcode
  have hcenter : centerEntries z zips = [] := by
    unfold centerEntries
    apply List.filter_eq_nil_iff.mpr
    intro e he
    intro hpred
    obtain ⟨hk, hcode, -, -⟩ := centerPred_spec hpred
    exact habs e he hk hcode
  refine ⟨?_, ?_, ?_, ?_, ?_⟩
  · rw [show matching v zips = _clean_zipcode matchingFn v zips from rfl,
      clean_zipcode_eq_gate, hg]
    show matchingFn z zips = _
    unfold matchingFn
    rw [hscan]
  · rw [show isvalid v zips = _clean_zipcode isvalidFn v zips from rfl,
      clean_zipcode_eq_gate, hg]
    show isvalidFn z zips = _
    unfold isvalidFn
    rw [matching_str_of_valid hz zips, hscan]
    rfl
  · rw [show districtmatch v zips = _clean_zipcode districtmatchFn v zips from rfl,
      clean_zipcode_eq_gate, hg]
    show districtmatchFn z zips = _
    unfold districtmatchFn
    rw [hloop]
    rfl
  · rw [show coordinates v zips = _clean_zipcode coordinatesFn v zips from rfl,
      clean_zipcode_eq_gate, hg]
    show coordinatesFn z zips = _
    unfold coordinatesFn
    rw [matching_str_of_valid hz zips, hscan]
    rfl
  · rw [show nearby v maxd zips = _clean_zipcode (fun z zs => nearbyFn z maxd zs) v zips from rfl,
      clean_zipcode_eq_gate, hg]
    show nearbyFn z maxd zips = _
    unfold nearbyFn
    rw [hcenter]

/-- Witness for C7: the valid code `"999999"` against the scenario
dataset, which contains only code `"110001"`. -/
theorem C7_absent_code_witness :
    matching (.str "999999") [[("Pincode", Val.str "110001")]] = .ok [] ∧
    isvalid (.str "999999") [[("Pincode", Val.str "110001")]] = .ok false ∧
    districtmatch (.str "999999") [[("Pincode", Val.str "110001")]] = .error notFoundErr ∧
    coordinates (.str "999999") [[("Pincode", Val.str "110001")]] = .ok [] ∧
    nearby (.str "999999") defaultMaxDiff [[("Pincode", Val.str "110001")]] = .ok [] :=
  C7_absent_code (.str "999999") "999999" defaultMaxDiff _ (by decide) (by decide)

/-- C8: for every parse function (standing for `json.loads`) and every
sequence of input lines, the loader admits exactly those lines that —
after trimming — are non-empty, parse to a key-value mapping, and
contain the `"Pincode"` field, in original line order, silently skipping
the rest; in particular feeding it one valid line, one line of invalid
JSON and one blank line yields a dataset of length 1. -/
theorem C8_loader :
    (∀ (parse : String → Option Parsed) (lines : List String),
      loadZips parse lines = lines.filterMap (admitLine parse)) ∧
    (loadZips miniJsonParse
      ["\x7b\"Pincode\": \"110001\", \"District\": \"New Delhi\"\x7d",
       "\x7bnot valid json", "   "]).length = 1 := by
  constructor
  · intro parse lines
    induction lines with
    | nil => rfl
    | cons line rest ih =>
      rw [List.filterMap_cons]
      by_cases h0 : pyStrip line = ""
      · simp [loadZips, admitLine, h0, ih]
      · cases hp : parse (pyStrip line) with
        | none => simp [loadZips, admitLine, h0, hp, ih]
        | some p =>
          cases p with
          | other => simp [loadZips, admitLine, h0, hp, ih]
          | obj r =>
            by_cases hk : r.hasKey "Pincode" = true
            · simp [loadZips, admitLine, h0, hp, hk, ih]
            · simp [loadZips, admitLine, h0, hp, hk, ih]
  · decide

/-- C9: `nearby` treats the anchor's coordinate conversion and the scan's
coordinate conversions differently. On a dataset whose first record
matching the reference code has the truthy but non-numeric latitude
`"abc"`, the unguarded `float` conversion of the anchor raises an
unhandled `ValueError` instead of returning a result; the same bad
coordinates on a non-reference record are caught by the scan's
`try/except ValueError`, which merely skips that record. -/
theorem C9_anchor_unguarded_scan_guarded :
    nearby (.str "110001") defaultMaxDiff
        [[("Pincode", Val.str "110001"), ("Latitude", Val.str "abc"),
          ("Longitude", Val.str "77.22")]] =
      .error (.valueError "could not convert string to float: abc") ∧
    nearby (.str "110001") defaultMaxDiff
        [[("Pincode", Val.str "110001"), ("Latitude", Val.str "28.63"),
          ("Longitude", Val.str "77.22")],
         [("Pincode", Val.str "110002"), ("Latitude", Val.str "abc"),
          ("Longitude", Val.str "77.22")]] =
      .ok [] :=
  ⟨by decide, by decide⟩

/-- C3: whenever `nearby` returns a list for a validated reference code,
that list does not contain the reference code, has no duplicates, and is
sorted in ascending lexical order. -/
theorem C3_nearby_wellformed (v : Val) (z : String) (maxd : Dec) (zips : List Record)
    (l : List String) (hg : gateOf v = .ok z) (h : nearby v maxd zips = .ok l) :
    z ∉ l ∧ l.Nodup ∧ l.Sorted (· ≤ ·) := by
  have hfn : nearbyFn z maxd zips = .ok l := by
    rw [show nearby v maxd zips = _clean_zipcode (fun z zs => nearbyFn z maxd zs) v zips from rfl,
      clean_zipcode_eq_gate, hg] at h
    exact h
  rcases nearbyFn_ok_inv hfn with ⟨-, rfl⟩ | ⟨c, cs, clat, clon, pins, hc, hlat, hlon, hscan, rfl⟩
  · exact ⟨by simp, List.nodup_nil, List.sorted_nil⟩
  · have hnodup : pins.Nodup := nearbyScan_ok_nodup List.nodup_nil hscan
    have hnotin : z ∉ (if z ∈ pins then pins.erase z else pins) := by
      by_cases hz : z ∈ pins
      · rw [if_pos hz]
        intro hmem
        exact ((hnodup.mem_erase_iff).mp hmem).1 rfl
      · rw [if_neg hz]
        exact hz
    have hnd' : (if z ∈ pins then pins.erase z else pins).Nodup := by
      by_cases hz : z ∈ pins
      · rw [if_pos hz]
        exact hnodup.erase z
      · rw [if_neg hz]
        exact hnodup
    refine ⟨?_, pySorted_nodup hnd', pySorted_sorted _⟩
    intro hmem
    exact hnotin ((pySorted_mem _ _).mp hmem)

/-- Witness for C3 on a dataset with one nearby code. -/
theorem C3_nearby_wellformed_witness :
    nearby (.str "110001") defaultMaxDiff symPairData = .ok ["110002"] ∧
    ("110001" ∉ (["110002"] : List String) ∧ (["110002"] : List String).Nodup ∧
      (["110002"] : List String).Sorted (· ≤ ·)) :=
  ⟨by decide,
    C3_nearby_wellformed (.str "110001") "110001" defaultMaxDiff symPairData ["110002"]
      (by decide) (by decide)⟩

theorem nearby_cross_mem {zips : List Record} {A B : String} {maxd : Dec}
    {ra rb : Record} {a1 a2 b1 b2 : Dec} {la : List String}
    (hBA : B ≠ A)
    (hra : (centerEntries A zips).head? = some ra)
    (hrb : (centerEntries B zips).head? = some rb)
    (ha1 : pyFloat (ra.getD "Latitude" .null) = .ok a1)
    (ha2 : pyFloat (ra.getD "Longitude" .null) = .ok a2)
    (hb1 : pyFloat (rb.getD "Latitude" .null) = .ok b1)
    (hb2 : pyFloat (rb.getD "Longitude" .null) = .ok b2)
    (hdist : |b1.toRat - a1.toRat| + |b2.toRat - a2.toRat| ≤ maxd.toRat)
    (hA : nearbyFn A maxd zips = .ok la) :
    B ∈ la := by
  rcases nearbyFn_ok_inv hA with ⟨hc, -⟩ | ⟨c, cs, clat, clon, pins, hc, hlat, hlon, hscan, hl⟩
  · rw [hc] at hra
    cases hra
  · rw [hc] at hra
    rw [List.head?_cons] at hra
    injection hra with hra'
    subst hra'
    rw [hlat] at ha1
    injection ha1 with ha1'
    subst ha1'
    rw [hlon] at ha2
    injection ha2 with ha2'
    subst ha2'
    have hrbmem : rb ∈ centerEntries B zips := mem_of_head? hrb
    have hrbz := List.mem_filter.mp (show rb ∈ zips.filter (centerPred B) from hrbmem)
    obtain ⟨hk, hcode, htlat, htlon⟩ := centerPred_spec hrbz.2
    have hb1' : pyFloat (rb.getD "Latitude" (.str "")) = .ok b1 := by
      rw [getD_eq_of_truthy htlat (.str "") .null]
      exact hb1
    have hb2' : pyFloat (rb.getD "Longitude" (.str "")) = .ok b2 := by
      rw [getD_eq_of_truthy htlon (.str "") .null]
      exact hb2
    have hd : (Dec.add (Dec.abs (Dec.sub b1 clat)) (Dec.abs (Dec.sub b2 clon))).le maxd = true :=
      dec_manhattan_le.mpr hdist
    have hmem := nearbyScan_ok_mem hscan hrbz.1 hk hb1' hb2' hd
    rw [hcode] at hmem
    subst hl
    rw [pySorted_mem]
    by_cases hz : A ∈ pins
    · rw [if_pos hz]
      exact (List.mem_erase_of_ne hBA).mpr hmem
    · rw [if_neg hz]
      exact hmem

/-- C4 (amended): for every dataset, threshold and two distinct validated
codes `A` and `B` whose first center entries (first records with the code
and truthy coordinates) both have parseable coordinates — their anchors —
if the Manhattan distance between the anchors is at most the threshold
and both `nearby` calls return without raising, then `B` appears in
`nearby A` and `A` appears in `nearby B`. (The claim as stated fails
when a truthy-but-unparseable record precedes the anchor, or when another
record makes the scan raise; see the counterexample.) -/
theorem C4_nearby_symmetric (zips : List Record) (A B : String) (maxd : Dec)
    (ra rb : Record) (a1 a2 b1 b2 : Dec) (la lb : List String)
    (hAB : A ≠ B)
    (hra : (centerEntries A zips).head? = some ra)
    (hrb : (centerEntries B zips).head? = some rb)
    (ha1 : pyFloat (ra.getD "Latitude" .null) = .ok a1)
    (ha2 : pyFloat (ra.getD "Longitude" .null) = .ok a2)
    (hb1 : pyFloat (rb.getD "Latitude" .null) = .ok b1)
    (hb2 : pyFloat (rb.getD "Longitude" .null) = .ok b2)
    (hdist : |a1.toRat - b1.toRat| + |a2.toRat - b2.toRat| ≤ maxd.toRat)
    (hA : nearbyFn A maxd zips = .ok la)
    (hB : nearbyFn B maxd zips = .ok lb) :
    B ∈ la ∧ A ∈ lb := by
  constructor
  · refine nearby_cross_mem (Ne.symm hAB) hra hrb ha1 ha2 hb1 hb2 ?_ hA
    rw [abs_sub_comm b1.toRat, abs_sub_comm b2.toRat]
    exact hdist
  · exact nearby_cross_mem hAB hrb hra hb1 hb2 ha1 ha2 hdist hB

/-- C4 counterexample: on `symCounterData` the codes `"111111"` and
`"222222"` are distinct validated codes, each with exactly one anchor
record (truthy, parseable coordinates), and the Manhattan distance
between the two anchors is within the default threshold — yet `"222222"`
does not appear in `nearby "111111"`: `nearby` selects the first record
with truthy coordinates (which is unparseable) as its center and raises
`ValueError`, so no list is returned at all. -/
theorem C4_counterexample :
    gateOf (.str "111111") = .ok "111111" ∧
    gateOf (.str "222222") = .ok "222222" ∧
    ("111111" : String) ≠ "222222" ∧
    (symCounterData.filter (isAnchor "111111")).length = 1 ∧
    (symCounterData.filter (isAnchor "222222")).length = 1 ∧
    (∃ ra ∈ symCounterData.filter (isAnchor "111111"),
     ∃ rb ∈ symCounterData.filter (isAnchor "222222"),
     ∃ a1 a2 b1 b2 : Dec,
      pyFloat (ra.getD "Latitude" (.str "")) = .ok a1 ∧
      pyFloat (ra.getD "Longitude" (.str "")) = .ok a2 ∧
      pyFloat (rb.getD "Latitude" (.str "")) = .ok b1 ∧
      pyFloat (rb.getD "Longitude" (.str "")) = .ok b2 ∧
      |a1.toRat - b1.toRat| + |a2.toRat - b2.toRat| ≤ defaultMaxDiff.toRat) ∧
    ¬ (∃ l, nearby (.str "111111") defaultMaxDiff symCounterData = .ok l ∧ "222222" ∈ l) := by
  refine ⟨by decide, by decide, by decide, by decide, by decide, ?_, ?_⟩
  · refine ⟨[("Pincode", .str "111111"), ("Latitude", .str "10.0"), ("Longitude", .str "10.0")],
      by decide,
      [("Pincode", .str "222222"), ("Latitude", .str "10.0"), ("Longitude", .str "10.01")],
      by decide,
      ⟨100, 1⟩, ⟨100, 1⟩, ⟨100, 1⟩, ⟨1001, 2⟩,
      by decide, by decide, by decide, by decide, ?_⟩
    exact dec_manhattan_le.mp (by decide)
  · rintro ⟨l, hl, -⟩
    rw [show nearby (.str "111111") defaultMaxDiff symCounterData =
        .error (.valueError "could not convert string to float: abc") from by decide] at hl
    cases hl

/-- Witness for C4 on `symPairData`, two mutually nearby codes. -/
theorem C4_nearby_symmetric_witness :
    ("110002" : String) ∈ (["110002"] : List String) ∧
    ("110001" : String) ∈ (["110001"] : List String) :=
  C4_nearby_symmetric symPairData "110001" "110002" defaultMaxDiff anchorA anchorB
    ⟨2863, 2⟩ ⟨7722, 2⟩ ⟨2860, 2⟩ ⟨7723, 2⟩ ["110002"] ["110001"]
    (by decide) (by decide) (by decide) (by decide) (by decide) (by decide) (by decide)
    (dec_manhattan_le.mp (by decide)) (by decide) (by decide)

end Indiapins
